import Mathlib

/-!
A verification model of the Forex-Backtester simulation engine.

This file gives a shallow embedding, over the rationals, of the backtest
simulation engine found in `src/server/backtest-engine.ts` (the variant that
`src/server/routes.ts` imports and serves), together with theorems about the
properties of that engine.

Modelling conventions:
* JavaScript `number` is modelled as `ℚ` (the engine only performs field
  operations, `Math.abs`, `Math.round`, `Math.floor`, `Math.max`, `Math.min`,
  all exact on the inputs we consider).  Division by zero is total in `ℚ`.
* `Date` instants are modelled as `ℤ` (epoch milliseconds); `toISOString` is
  injective on instants, so equality of the serialized strings is equality of
  the modelled integers.
* Signal timestamp strings are modelled by their parsed instant
  (`Option ℤ`): the engine filters on truthiness of the string and then
  parses it with `parseSignalTimestamp`, which never fails.  The date-order
  heuristic of `parseSignalTimestamp` itself is modelled separately by
  `resolveYMD`.
* `crypto.randomUUID()` is modelled as an injected entropy stream
  `uuid : ℕ → String`; the k-th call made by a run returns `uuid k`.  Calls
  happen once per pushed trade (in push order) and once, last, for the
  result id.  The wall-clock reads `new Date()` at start/end are injected as
  the parameters `startT` and `endT`.
* JavaScript truthiness of an optional numeric field (`x || d`, `if (x)`)
  is modelled by `jsOr` / comparing `Option.getD 0` with `0`.
* Identifier note: the token `partial` is a Lean keyword, so source names
  containing it are shortened: `closePartials` becomes `closeParts`,
  `partialClosePercent` becomes `partClosePercent`, and the in-model event
  for a partial close is `PosEvent.partClose`.
-/

/-- Trade direction, `"buy" | "sell"` in `src/shared/schema.ts`. -/
inductive Direction
| buy
| sell
deriving DecidableEq, Repr, Inhabited

/-- A parsed bid/ask tick (`interface Tick` in `backtest-engine.ts`). -/
structure Tick where
  time : ℤ
  bid : ℚ
  ask : ℚ
deriving DecidableEq, Repr

/-- Model of `parsedSignalSchema` from `src/shared/schema.ts`; `timestamp` holds the
parsed trigger instant (`none` models a missing/empty timestamp string). -/
structure ParsedSignal where
  id : String
  rawText : String
  symbol : String
  direction : Direction
  entryPrice : ℚ
  stopLoss : ℚ
  takeProfits : List ℚ
  timestamp : Option ℤ
deriving DecidableEq, Repr, Inhabited

/-- Model of `strategyConfigSchema` from `src/shared/schema.ts`.  `closeParts` is the
source field `closePartials` and `partClosePercent` is the source field
`partialClosePercent` (renamed, see header). -/
structure StrategyConfig where
  moveSLToEntry : Bool
  moveSLAfterTP : Option ℚ
  moveSLAfterPips : Option ℚ
  trailingSL : Bool
  trailingPips : Option ℚ
  useMultipleTPs : Bool
  activeTPs : List ℚ
  closeParts : Bool
  partClosePercent : ℚ
  closeAllOnTP : Option ℚ
deriving DecidableEq, Repr

/-- Risk sizing mode, `z.enum(["percentage", "fixed_lot", "rule_based"])`. -/
inductive RiskType
| percentage
| fixedLot
| ruleBased
deriving DecidableEq, Repr

/-- Model of `riskConfigSchema` from `src/shared/schema.ts`. -/
structure RiskConfig where
  initialBalance : ℚ
  riskType : RiskType
  riskPercentage : Option ℚ
  fixedLotSize : Option ℚ
  ruleBasedAmount : Option ℚ
  ruleBasedLot : Option ℚ
deriving DecidableEq, Repr

/-- Exit reason of a recorded trade (`tradeResultSchema.exitReason`;
`tp n` models the string `tpN`).  Note the schema enum contains no `open`
value; the served engine never produces `manual` either. -/
inductive ExitReason
| tp (level : ℕ)
| sl
| trailingSl
| manual
deriving DecidableEq, Repr, Inhabited

/-- The per-position state kept by the engine (`interface OpenTrade`). -/
structure OpenTrade where
  signalId : String
  signal : ParsedSignal
  entryPrice : ℚ
  entryTime : ℤ
  currentSL : ℚ
  initialLotSize : ℚ
  remainingLots : ℚ
  highestPrice : ℚ
  lowestPrice : ℚ
  tpHits : List ℕ
  realizedProfit : ℚ
  weightedPips : ℚ
deriving DecidableEq, Repr

/-- The id-less part of a `TradeResult` record, as assembled by the engine at
a close event; ids are attached from the entropy stream afterwards. -/
structure TradeCore where
  signalId : String
  symbol : String
  direction : Direction
  entryPrice : ℚ
  entryTime : ℤ
  exitPrice : ℚ
  exitTime : ℤ
  exitReason : ExitReason
  lotSize : ℚ
  pips : ℚ
  profit : ℚ
  balance : ℚ
  equity : ℚ
deriving DecidableEq, Repr

/-- Model of `tradeResultSchema` from `src/shared/schema.ts`. -/
structure TradeResult where
  id : String
  signalId : String
  symbol : String
  direction : Direction
  entryPrice : ℚ
  entryTime : ℤ
  exitPrice : ℚ
  exitTime : ℤ
  exitReason : ExitReason
  lotSize : ℚ
  pips : ℚ
  profit : ℚ
  balance : ℚ
  equity : ℚ
deriving DecidableEq, Repr, Inhabited

/-- One equity-curve point (`{ time, equity, balance }`). -/
structure EquityPoint where
  time : ℤ
  equity : ℚ
  balance : ℚ
deriving DecidableEq, Repr, Inhabited

/-- The running accounting state owned by the orchestrator: balance, equity,
running maxima, drawdowns, and the output trade / equity-curve lists. -/
structure EconState where
  balance : ℚ
  equity : ℚ
  maxEquity : ℚ
  maxBalance : ℚ
  maxDrawdownEquity : ℚ
  maxDrawdownBalance : ℚ
  trades : List TradeCore
  curve : List EquityPoint
deriving DecidableEq, Repr

/-- Full engine state threaded through the tick loop.  `pending` is the
sorted signal list not yet opened (so `signalIndex >= length` in the source
corresponds to `pending = []`). -/
structure EngState where
  econ : EconState
  openTrades : List (String × OpenTrade)
  pending : List ParsedSignal
  tickCount : ℕ
  firstTickTime : Option ℤ
  lastTickTime : Option ℤ
deriving DecidableEq, Repr

/-- The distinct `throw new Error(...)` outcomes of `runBacktest`. -/
inductive BTError
| emptySignals
| noTimestampedSignals
| noTicksProcessed
| signalsAfterTicks
| signalsBeforeTicks
deriving DecidableEq, Repr

deriving instance DecidableEq for Except

/-- Model of `backtestResultsSchema` from `src/shared/schema.ts`. -/
structure BacktestResults where
  id : String
  startTime : ℤ
  endTime : ℤ
  initialBalance : ℚ
  finalBalance : ℚ
  totalTrades : ℕ
  winningTrades : ℕ
  losingTrades : ℕ
  winRate : ℚ
  totalPips : ℚ
  maxDrawdownEquity : ℚ
  maxDrawdownEquityPercent : ℚ
  maxDrawdownBalance : ℚ
  maxDrawdownBalancePercent : ℚ
  profitFactor : ℚ
  averageWin : ℚ
  averageLoss : ℚ
  largestWin : ℚ
  largestLoss : ℚ
  trades : List TradeResult
  equityCurve : List EquityPoint
deriving DecidableEq, Repr, Inhabited

/-- JavaScript `x || d` on an optional numeric field: `undefined` and `0`
both fall back to the default. -/
def jsOr (o : Option ℚ) (d : ℚ) : ℚ :=
  match o with
  | some v => if v = 0 then d else v
  | none => d

/-- JavaScript `Math.round` (round half toward positive infinity). -/
def jsRound (q : ℚ) : ℤ :=
  ⌊q + 1 / 2⌋

/-- Case-insensitive substring test used by `getPipValue`
(`symbol.toUpperCase().includes(pat)` for an upper-case literal `pat`). -/
def containsUpper (symbol : String) (pat : String) : Bool :=
  decide (pat.data <:+: symbol.data.map Char.toUpper)

/-- Model of `getPipValue` from `backtest-engine.ts` (lines 34-39). -/
def getPipValue (symbol : String) : ℚ :=
  if containsUpper symbol "JPY" then 1 / 100
  else if containsUpper symbol "XAU" || containsUpper symbol "GOLD" then 1 / 10
  else 1 / 10000

/-- Model of `calculatePips` from `backtest-engine.ts` (lines 41-45). -/
def calculatePips (entryPrice exitPrice : ℚ) (direction : Direction) (symbol : String) : ℚ :=
  let pipValue := getPipValue symbol
  let priceDiff :=
    match direction with
    | .buy => exitPrice - entryPrice
    | .sell => entryPrice - exitPrice
  priceDiff / pipValue

/-- Model of `calculateLotSize` from `backtest-engine.ts` (lines 47-71).  The `symbol`
parameter is unused, as in the source.  The zod enum for `riskType` has
exactly three values, so the source's `default` branch is unreachable. -/
def calculateLotSize (riskConfig : RiskConfig) (balance stopLossPips : ℚ) (_symbol : String) : ℚ :=
  match riskConfig.riskType with
  | .percentage =>
      let riskAmount := balance * (jsOr riskConfig.riskPercentage 1 / 100)
      let pipValuePerLot : ℚ := 10
      let lots := riskAmount / (|stopLossPips| * pipValuePerLot)
      max (1 / 100) ((jsRound (lots * 100) : ℚ) / 100)
  | .fixedLot => jsOr riskConfig.fixedLotSize (1 / 100)
  | .ruleBased =>
      let ruleAmount := jsOr riskConfig.ruleBasedAmount 100
      let ruleLot := jsOr riskConfig.ruleBasedLot (1 / 100)
      let multiplier : ℤ := ⌊balance / ruleAmount⌋
      max (1 / 100) ((multiplier : ℚ) * ruleLot)

/-- Model of `calculateProfit` from `backtest-engine.ts` (lines 73-75). -/
def calculateProfit (pips lotSize : ℚ) : ℚ :=
  pips * 10 * lotSize

/-- The date-component resolution heuristic of `parseSignalTimestamp`
(`backtest-engine.ts` lines 114-147), acting on the three numeric components
`p0, p1, p2` obtained by splitting the date part on `-`, `.` or `/` and
applying `parseInt(_) || 0`.  Returns `(year, month, day)`. -/
def resolveYMD (p0 p1 p2 : ℕ) : ℕ × ℕ × ℕ :=
  if 31 < p0 then
    (p0, p1, p2)
  else if 31 < p2 then
    if 12 < p0 then (p2, p1, p0)
    else if 12 < p1 then (p2, p0, p1)
    else (p2, p1, p0)
  else
    ((if p0 < 100 then 2000 + p0 else p0), p1, p2)

/-- Step 1 of the per-tick position evaluation (`backtest-engine.ts` lines
344-348): track the highest bid seen for buys, the lowest ask for sells. -/
def updateExtremes (tick : Tick) (trade : OpenTrade) : OpenTrade :=
  match trade.signal.direction with
  | .buy => { trade with highestPrice := max trade.highestPrice tick.bid }
  | .sell => { trade with lowestPrice := min trade.lowestPrice tick.ask }

/-- Step 2, the trailing-stop ratchet (`backtest-engine.ts` lines 350-365):
guarded by `strategy.trailingSL && strategy.trailingPips` (JS truthiness, so
`trailingPips` absent or `0` disables it); only ever moves the stop in the
favorable direction. -/
def applyTrailing (strategy : StrategyConfig) (trade : OpenTrade) : OpenTrade :=
  if strategy.trailingSL ∧ strategy.trailingPips.getD 0 ≠ 0 then
    let pipValue := getPipValue trade.signal.symbol
    let trailDistance := strategy.trailingPips.getD 0 * pipValue
    match trade.signal.direction with
    | .buy =>
        let newSL := trade.highestPrice - trailDistance
        if newSL > trade.currentSL then { trade with currentSL := newSL } else trade
    | .sell =>
        let newSL := trade.lowestPrice + trailDistance
        if newSL < trade.currentSL then { trade with currentSL := newSL } else trade
  else trade

/-- Step 3, the breakeven move (`backtest-engine.ts` lines 367-373): guarded
by `strategy.moveSLToEntry && strategy.moveSLAfterTP && tpHits.length >=
moveSLAfterTP`; clamps the stop to at least the entry price. -/
def applyBreakeven (strategy : StrategyConfig) (trade : OpenTrade) : OpenTrade :=
  if strategy.moveSLToEntry ∧ strategy.moveSLAfterTP.getD 0 ≠ 0 ∧
      strategy.moveSLAfterTP.getD 0 ≤ (trade.tpHits.length : ℚ) then
    match trade.signal.direction with
    | .buy =>
        if trade.currentSL < trade.entryPrice then
          { trade with currentSL := trade.entryPrice } else trade
    | .sell =>
        if trade.currentSL > trade.entryPrice then
          { trade with currentSL := trade.entryPrice } else trade
  else trade

/-- The composite of steps 1-3: the position state against which the
stop-loss and take-profit conditions of this tick are evaluated. -/
def updatedForTick (strategy : StrategyConfig) (tick : Tick) (trade : OpenTrade) : OpenTrade :=
  applyBreakeven strategy (applyTrailing strategy (updateExtremes tick trade))

/-- The stop-loss trigger condition (`backtest-engine.ts` lines 375-383):
buy positions stop out when the bid falls to or below the current stop, sell
positions when the ask rises to or above it. -/
def slTriggered (tick : Tick) (trade : OpenTrade) : Bool :=
  match trade.signal.direction with
  | .buy => tick.bid ≤ trade.currentSL
  | .sell => tick.ask ≥ trade.currentSL

/-- The price at which a stop-loss close is booked (`slExitPrice`, lines
378-382): the tick's bid for buys, ask for sells. -/
def slExitPrice (tick : Tick) (trade : OpenTrade) : ℚ :=
  match trade.signal.direction with
  | .buy => tick.bid
  | .sell => tick.ask

/-- The data of a full close of a position on some tick. -/
structure CloseInfo where
  reason : ExitReason
  exitPrice : ℚ
  exitProfit : ℚ
  totalProfit : ℚ
  totalPips : ℚ
deriving DecidableEq, Repr

/-- What evaluating one open position against one tick does to the
accounting state: nothing, a partial close (balance delta and lots closed),
or a full close.  `partClose` models the source's partial-close branch. -/
inductive PosEvent
| noEvent
| partClose (delta : ℚ) (closeLots : ℚ)
| close (info : CloseInfo)
deriving DecidableEq, Repr

/-- The full-close bookkeeping shared by the stop-loss branch (lines
385-416) and the terminal take-profit branch (lines 454-493): profit on the
remaining lots plus previously realized profit, and lot-weighted pips. -/
def mkCloseInfo (reason : ExitReason) (exitPrice : ℚ) (trade : OpenTrade) : CloseInfo :=
  let pips := calculatePips trade.entryPrice exitPrice trade.signal.direction trade.signal.symbol
  let exitProfit := calculateProfit pips trade.remainingLots
  let totalProfit := exitProfit + trade.realizedProfit
  let remainingWeight := trade.remainingLots / trade.initialLotSize
  let totalWeightedPips := trade.weightedPips + pips * remainingWeight
  { reason := reason, exitPrice := exitPrice, exitProfit := exitProfit,
    totalProfit := totalProfit, totalPips := totalWeightedPips }

/-- The take-profit ladder scan (`backtest-engine.ts` lines 428-518),
iterating over `signal.takeProfits` with its indices: skip inactive or
already-hit levels; on the first hit record the level and either close all
remaining lots at the market price, close a percentage of the remaining lots
(partial close), or do nothing further; in all hit cases stop scanning
(`break`). -/
def tpScan (strategy : StrategyConfig) (tick : Tick) (trade : OpenTrade) :
    List (ℕ × ℚ) → OpenTrade × PosEvent
  | [] => (trade, .noEvent)
  | (i, tp) :: rest =>
      let tpLevel := i + 1
      if ¬ ((tpLevel : ℚ) ∈ strategy.activeTPs) then tpScan strategy tick trade rest
      else if tpLevel ∈ trade.tpHits then tpScan strategy tick trade rest
      else
        let tpHit : Bool :=
          match trade.signal.direction with
          | .buy => tick.bid ≥ tp
          | .sell => tick.ask ≤ tp
        let tpExitPrice :=
          match trade.signal.direction with
          | .buy => tick.bid
          | .sell => tick.ask
        if tpHit then
          let trade1 := { trade with tpHits := trade.tpHits ++ [tpLevel] }
          let activeTpCount := strategy.activeTPs.length
          let remainingTps : ℤ := (activeTpCount : ℤ) - (trade1.tpHits.length : ℤ)
          let shouldCloseAll :=
            strategy.closeAllOnTP.getD 0 ≠ 0 ∧ strategy.closeAllOnTP.getD 0 ≤ (tpLevel : ℚ)
          let isFinalTp := remainingTps = 0
          if shouldCloseAll ∨ isFinalTp then
            (trade1, .close (mkCloseInfo (.tp tpLevel) tpExitPrice trade1))
          else if strategy.closeParts ∧ 0 < remainingTps then
            let percent := (if strategy.partClosePercent = 0 then 50 else strategy.partClosePercent) / 100
            let closeLots := trade1.remainingLots * percent
            let pips := calculatePips trade1.entryPrice tpExitPrice trade1.signal.direction trade1.signal.symbol
            let partProfit := calculateProfit pips closeLots
            let partWeight := closeLots / trade1.initialLotSize
            let trade2 :=
              { trade1 with
                remainingLots := trade1.remainingLots - closeLots,
                realizedProfit := trade1.realizedProfit + partProfit,
                weightedPips := trade1.weightedPips + pips * partWeight }
            (trade2, .partClose partProfit closeLots)
          else
            (trade1, .noEvent)
        else tpScan strategy tick trade rest

/-- Evaluation of one open position against one tick (`backtest-engine.ts`
lines 339-518): update extremes, ratchet the trailing stop, apply the
breakeven move, then check the stop-loss and — only if it did not trigger —
scan the take-profit ladder. -/
def posStep (strategy : StrategyConfig) (tick : Tick) (trade : OpenTrade) :
    OpenTrade × PosEvent :=
  let u := updatedForTick strategy tick trade
  if slTriggered tick u then
    let reason : ExitReason := if strategy.trailingSL then .trailingSl else .sl
    (u, .close (mkCloseInfo reason (slExitPrice tick u) u))
  else
    tpScan strategy tick u u.signal.takeProfits.enum

/-- The running max-equity / max-balance / drawdown update performed after
every balance change (`backtest-engine.ts` lines 395-399, 464-468,
509-513). -/
def updateDD (st : EconState) : EconState :=
  let p :=
    if st.equity > st.maxEquity then (st.equity, st.maxDrawdownEquity)
    else if st.maxEquity - st.equity > st.maxDrawdownEquity then
      (st.maxEquity, st.maxEquity - st.equity)
    else (st.maxEquity, st.maxDrawdownEquity)
  let q :=
    if st.balance > st.maxBalance then (st.balance, st.maxDrawdownBalance)
    else if st.maxBalance - st.balance > st.maxDrawdownBalance then
      (st.maxBalance, st.maxBalance - st.balance)
    else (st.maxBalance, st.maxDrawdownBalance)
  { st with maxEquity := p.1, maxDrawdownEquity := p.2,
            maxBalance := q.1, maxDrawdownBalance := q.2 }

/-- The trade record pushed at a full close (`trades.push` at lines 401-416
and 470-485), minus the id drawn from the entropy stream. -/
def mkCore (trade : OpenTrade) (tick : Tick) (info : CloseInfo) (newBalance : ℚ) : TradeCore :=
  { signalId := trade.signal.id
    symbol := trade.signal.symbol
    direction := trade.signal.direction
    entryPrice := trade.entryPrice
    entryTime := trade.entryTime
    exitPrice := info.exitPrice
    exitTime := tick.time
    exitReason := info.reason
    lotSize := trade.initialLotSize
    pips := info.totalPips
    profit := info.totalProfit
    balance := newBalance
    equity := newBalance }

/-- Application of a position event to the accounting state: a partial close
only moves balance/equity and the drawdown trackers; a full close moves them
and additionally appends one trade record and one equity-curve point. -/
def applyEvent (tick : Tick) (trade : OpenTrade) (ev : PosEvent) (st : EconState) : EconState :=
  match ev with
  | .noEvent => st
  | .partClose delta _ =>
      updateDD { st with balance := st.balance + delta, equity := st.balance + delta }
  | .close info =>
      let b := st.balance + info.exitProfit
      let st1 := updateDD { st with balance := b, equity := b }
      { st1 with
        trades := st1.trades ++ [mkCore trade tick info b],
        curve := st1.curve ++ [{ time := tick.time, equity := b, balance := b }] }

/-- Evaluate every open position against the tick, left to right in map
insertion order, threading the accounting state; fully closed positions are
removed from the open set (`tradesToClose` / `openTrades.delete`). -/
def processPositions (strategy : StrategyConfig) (tick : Tick) :
    List (String × OpenTrade) → EconState → List (String × OpenTrade) × EconState
  | [], st => ([], st)
  | (id, trade) :: rest, st =>
      let r := posStep strategy tick trade
      let st1 := applyEvent tick r.1 r.2 st
      let tail := processPositions strategy tick rest st1
      match r.2 with
      | .close _ => tail
      | _ => ((id, r.1) :: tail.1, tail.2)

/-- Insert-or-replace on the open-trade association list, matching the
insertion-order semantics of the source's `Map.set`. -/
def assocSet (l : List (String × OpenTrade)) (k : String) (v : OpenTrade) :
    List (String × OpenTrade) :=
  match l with
  | [] => [(k, v)]
  | (k', v') :: t => if k' = k then (k, v) :: t else (k', v') :: assocSet t k v

/-- The parsed trigger instant of a signal (`parseSignalTimestamp(s.timestamp!)`
in the model's pre-parsed form; only applied to signals that passed the
`filter(s => s.timestamp)` truthiness filter, where it is `some`). -/
def sigTime (s : ParsedSignal) : ℤ :=
  s.timestamp.getD 0

/-- A fresh open position (`openTrades.set(signal.id, {...})`, lines
316-329). -/
def mkOpen (signal : ParsedSignal) (entryPrice : ℚ) (tick : Tick) (lotSize : ℚ) : OpenTrade :=
  { signalId := signal.id
    signal := signal
    entryPrice := entryPrice
    entryTime := tick.time
    currentSL := signal.stopLoss
    initialLotSize := lotSize
    remainingLots := lotSize
    highestPrice := entryPrice
    lowestPrice := entryPrice
    tpHits := []
    realizedProfit := 0
    weightedPips := 0 }

/-- The signal-opening `while` loop (`backtest-engine.ts` lines 307-335):
open every pending signal whose trigger time has arrived, in order; entry is
at the ask for buys and the bid for sells; the lot size is computed from the
balance current at this tick and the signal's stop distance. -/
def openSignals (riskConfig : RiskConfig) (tick : Tick) (balance : ℚ) :
    List ParsedSignal → List (String × OpenTrade) →
    List ParsedSignal × List (String × OpenTrade)
  | [], openTrades => ([], openTrades)
  | s :: rest, openTrades =>
      if sigTime s ≤ tick.time then
        let entryPrice := match s.direction with | .buy => tick.ask | .sell => tick.bid
        let slPips := |calculatePips entryPrice s.stopLoss s.direction s.symbol|
        let lotSize := calculateLotSize riskConfig balance slPips s.symbol
        openSignals riskConfig tick balance rest (assocSet openTrades s.id (mkOpen s entryPrice tick lotSize))
      else (s :: rest, openTrades)

/-- One iteration of the tick loop: bump the tick counter and the first/last
tick times, open due signals, then evaluate all open positions. -/
def tickStep (strategy : StrategyConfig) (riskConfig : RiskConfig) (tick : Tick)
    (st : EngState) : EngState :=
  let first := match st.firstTickTime with | none => some tick.time | some t => some t
  let opened := openSignals riskConfig tick st.econ.balance st.pending st.openTrades
  let processed := processPositions strategy tick opened.2 st.econ
  { econ := processed.2
    openTrades := processed.1
    pending := opened.1
    tickCount := st.tickCount + 1
    firstTickTime := first
    lastTickTime := some tick.time }

/-- The tick loop (`for await ... of streamTicks`), with the source's early
break once every signal has been opened and no position remains open. -/
def runLoop (strategy : StrategyConfig) (riskConfig : RiskConfig) :
    List Tick → EngState → EngState
  | [], st => st
  | tick :: rest, st =>
      let st1 := tickStep strategy riskConfig tick st
      if st1.pending.isEmpty ∧ st1.openTrades.isEmpty then st1
      else runLoop strategy riskConfig rest st1

/-- Stable insertion of a signal after all signals with an earlier-or-equal
trigger time. -/
def insertSorted (a : ParsedSignal) : List ParsedSignal → List ParsedSignal
  | [] => [a]
  | b :: t => if sigTime b ≤ sigTime a then b :: insertSorted a t else a :: b :: t

/-- Stable sort of the timestamped signals by parsed trigger time, matching
the stable `Array.prototype.sort` of the source (lines 252-258). -/
def sortSignals (l : List ParsedSignal) : List ParsedSignal :=
  l.foldl (fun acc a => insertSorted a acc) []

/-- The initial engine state: balance and equity at the configured initial
balance, maxima seeded with it, no trades, empty curve tail. -/
def initState (riskConfig : RiskConfig) (sorted : List ParsedSignal) : EngState :=
  { econ :=
      { balance := riskConfig.initialBalance
        equity := riskConfig.initialBalance
        maxEquity := riskConfig.initialBalance
        maxBalance := riskConfig.initialBalance
        maxDrawdownEquity := 0
        maxDrawdownBalance := 0
        trades := []
        curve := [] }
    openTrades := []
    pending := sorted
    tickCount := 0
    firstTickTime := none
    lastTickTime := none }

/-- Model of `runBacktest` up to (but not including) result assembly: the precondition
checks, the signal sort, the tick loop, and the post-loop diagnostic throws
(`backtest-engine.ts` lines 248-262 and 536-562).  Returns the final engine
state or the error thrown. -/
def runEngine (signals : List ParsedSignal) (strategy : StrategyConfig)
    (riskConfig : RiskConfig) (ticks : List Tick) : Except BTError EngState :=
  if signals.isEmpty then .error .emptySignals
  else
    let sorted := sortSignals (signals.filter (fun s => s.timestamp.isSome))
    if sorted.isEmpty then .error .noTimestampedSignals
    else
      let stF := runLoop strategy riskConfig ticks (initState riskConfig sorted)
      if stF.econ.trades.isEmpty ∧ 0 < sorted.length then
        if stF.tickCount = 0 then .error .noTicksProcessed
        else
          match stF.firstTickTime, stF.lastTickTime with
          | some ft, some lt =>
              let sigStart := sigTime ((sorted.head?).getD default)
              let sigEnd := sigTime ((sorted.getLast?).getD default)
              if sigStart > lt then .error .signalsAfterTicks
              else if sigEnd < ft then .error .signalsBeforeTicks
              else .ok stF
          | _, _ => .ok stF
      else .ok stF

/-- A trade record with a given id attached to an id-less core record. -/
def withId (i : String) (c : TradeCore) : TradeResult :=
  { id := i
    signalId := c.signalId
    symbol := c.symbol
    direction := c.direction
    entryPrice := c.entryPrice
    entryTime := c.entryTime
    exitPrice := c.exitPrice
    exitTime := c.exitTime
    exitReason := c.exitReason
    lotSize := c.lotSize
    pips := c.pips
    profit := c.profit
    balance := c.balance
    equity := c.equity }

/-- Attach entropy-stream ids to the trade records, in push order: the k-th
pushed trade gets the k-th `crypto.randomUUID()` draw. -/
def attachIds (uuid : ℕ → String) : ℕ → List TradeCore → List TradeResult
  | _, [] => []
  | k, c :: rest => withId (uuid k) c :: attachIds uuid (k + 1) rest

/-- Final result assembly (`backtest-engine.ts` lines 264-284 and 564-593):
the initial equity point carries the wall-clock start time; the aggregate
statistics are computed once from the accumulated trade list. -/
def assemble (uuid : ℕ → String) (startT endT : ℤ) (riskConfig : RiskConfig)
    (st : EngState) : BacktestResults :=
  let trades := attachIds uuid 0 st.econ.trades
  let winningTrades := trades.filter (fun t => 0 < t.profit)
  let losingTrades := trades.filter (fun t => t.profit < 0)
  let totalWinAmount := (winningTrades.map (fun t => t.profit)).sum
  let totalLossAmount := |(losingTrades.map (fun t => t.profit)).sum|
  { id := uuid st.econ.trades.length
    startTime := startT
    endTime := endT
    initialBalance := riskConfig.initialBalance
    finalBalance := st.econ.balance
    totalTrades := trades.length
    winningTrades := winningTrades.length
    losingTrades := losingTrades.length
    winRate :=
      if 0 < trades.length then ((winningTrades.length : ℚ) / (trades.length : ℚ)) * 100 else 0
    totalPips := (trades.map (fun t => t.pips)).sum
    maxDrawdownEquity := st.econ.maxDrawdownEquity
    maxDrawdownEquityPercent :=
      if 0 < riskConfig.initialBalance then
        (st.econ.maxDrawdownEquity / riskConfig.initialBalance) * 100 else 0
    maxDrawdownBalance := st.econ.maxDrawdownBalance
    maxDrawdownBalancePercent :=
      if 0 < riskConfig.initialBalance then
        (st.econ.maxDrawdownBalance / riskConfig.initialBalance) * 100 else 0
    profitFactor :=
      if 0 < totalLossAmount then totalWinAmount / totalLossAmount
      else if 0 < totalWinAmount then 999 else 0
    averageWin :=
      if 0 < winningTrades.length then totalWinAmount / (winningTrades.length : ℚ) else 0
    averageLoss :=
      if 0 < losingTrades.length then totalLossAmount / (losingTrades.length : ℚ) else 0
    largestWin :=
      if 0 < winningTrades.length then
        ((winningTrades.map (fun t => t.profit)).max?).getD 0 else 0
    largestLoss :=
      if 0 < losingTrades.length then
        ((losingTrades.map (fun t => |t.profit|)).max?).getD 0 else 0
    trades := trades
    equityCurve :=
      { time := startT, equity := riskConfig.initialBalance,
        balance := riskConfig.initialBalance } :: st.econ.curve }

/-- The full `runBacktest` (`backtest-engine.ts` lines 239-594), over the
already-parsed tick sequence produced by the tick source, with the entropy
stream and the two wall-clock reads injected as parameters. -/
def runBacktest (uuid : ℕ → String) (startT endT : ℤ) (signals : List ParsedSignal)
    (strategy : StrategyConfig) (riskConfig : RiskConfig) (ticks : List Tick) :
    Except BTError BacktestResults :=
  (runEngine signals strategy riskConfig ticks).map (assemble uuid startT endT riskConfig)

/-- Sets only the take-profit ladder of a position's signal, leaving every
other field untouched; used to state that an outcome does not depend on the
ladder. -/
def setTPs (trade : OpenTrade) (tps : List ℚ) : OpenTrade :=
  { trade with signal := { trade.signal with takeProfits := tps } }

/-- Whether a position event is a full close. -/
def eventIsClose : PosEvent → Bool
  | .close _ => true
  | _ => false

/-- The balance change a position event causes. -/
def eventDelta : PosEvent → ℚ
  | .noEvent => 0
  | .partClose delta _ => delta
  | .close info => info.exitProfit

/-- The lots closed by a partial-close event, if any. -/
def partLotsOf : PosEvent → Option ℚ
  | .partClose _ closeLots => some closeLots
  | _ => none

/-- The exit price booked by a full-close event, if any. -/
def exitPriceOf : PosEvent → Option ℚ
  | .close info => some info.exitPrice
  | _ => none

/-- An exit reason the served engine can actually record: a plain or
trailing stop-loss, or a take-profit level. -/
def GoodReason (r : ExitReason) : Prop :=
  r = .sl ∨ r = .trailingSl ∨ ∃ n, r = .tp n

/-- Erases the entropy-drawn id of a trade record. -/
def stripTrade (t : TradeResult) : TradeResult :=
  { t with id := "" }

/-- Normalizes the wall-clock time of the initial equity-curve point. -/
def stripCurveHead : List EquityPoint → List EquityPoint
  | [] => []
  | p :: rest => { p with time := 0 } :: rest

/-- Erases exactly the entropy- and wall-clock-derived parts of a result:
the result id, the start/end times, the per-trade ids, and the initial
equity point's wall-clock time. -/
def stripResults (r : BacktestResults) : BacktestResults :=
  { r with
    id := ""
    startTime := 0
    endTime := 0
    trades := r.trades.map stripTrade
    equityCurve := stripCurveHead r.equityCurve }

/-- A minimal strategy: one active take-profit level, no trailing stop, no
breakeven move, no partial closes. -/
def stratPlain : StrategyConfig :=
  { moveSLToEntry := false
    moveSLAfterTP := none
    moveSLAfterPips := none
    trailingSL := false
    trailingPips := none
    useMultipleTPs := true
    activeTPs := [1]
    closeParts := false
    partClosePercent := 25
    closeAllOnTP := none }

/-- `stratPlain` with the trailing-stop flag enabled but no trailing
distance configured, so the ratchet never runs. -/
def stratTrailFlag : StrategyConfig :=
  { stratPlain with trailingSL := true, trailingPips := none }

/-- Three active take-profit levels with 50% partial closes enabled. -/
def stratParts : StrategyConfig :=
  { stratPlain with activeTPs := [1, 2, 3], closeParts := true, partClosePercent := 50 }

/-- Fixed-lot risk: 0.01 lots on a 10000 starting balance. -/
def riskFixed : RiskConfig :=
  { initialBalance := 10000
    riskType := .fixedLot
    riskPercentage := none
    fixedLotSize := some (1 / 100)
    ruleBasedAmount := none
    ruleBasedLot := none }

/-- A buy signal triggering at instant 0 with stop 1.0950 and one
take-profit at 1.1050. -/
def sigBuySL : ParsedSignal :=
  { id := "s1"
    rawText := ""
    symbol := "EURUSD"
    direction := .buy
    entryPrice := 0
    stopLoss := 1.0950
    takeProfits := [1.1050]
    timestamp := some 0 }

/-- A tick that both opens `sigBuySL` (time 0) and trips its stop
(bid 1.0940 below 1.0950). -/
def tickSL : Tick := { time := 0, bid := 1.0940, ask := 1.0960 }

/-- A buy signal with stop 1.0900 and three take-profit levels. -/
def sigBuyTPs : ParsedSignal :=
  { sigBuySL with stopLoss := 1.0900, takeProfits := [1.101, 1.102, 1.103] }

/-- A tick that opens a position without touching stop or targets. -/
def tickOpen : Tick := { time := 0, bid := 1.1000, ask := 1.1002 }

/-- A tick reaching the first take-profit level of `sigBuyTPs` only. -/
def tickTP1 : Tick := { time := 1, bid := 1.1015, ask := 1.1017 }

/-- A tick reaching the second take-profit level of `sigBuyTPs`. -/
def tickTP2 : Tick := { time := 2, bid := 1.1025, ask := 1.1027 }

/-- A buy signal whose stop remains far below and whose single target
remains far above the example prices, so a position opened on it stays
open. -/
def sigStaysOpen : ParsedSignal :=
  { sigBuySL with stopLoss := 1.0900, takeProfits := [1.2000] }

/-- A freshly opened position on `sigBuyTPs`, entered at 1.1002 with 0.01
lots (as the engine opens it on `tickOpen`). -/
def tradeTPs0 : OpenTrade := mkOpen sigBuyTPs 1.1002 tickOpen (1 / 100)

/-- `tradeTPs0` after its first partial close on `tickTP1`. -/
def tradeTPs1 : OpenTrade := (posStep stratParts tickTP1 tradeTPs0).1

/-- A position on `sigBuySL`, entered at 1.0960 with 0.01 lots, whose stop
1.0950 is gapped through by `tickGap`. -/
def tradeGap : OpenTrade := mkOpen sigBuySL 1.0960 tickOpen (1 / 100)

/-- A tick that gaps below the 1.0950 stop of `tradeGap`: bid 1.0900. -/
def tickGap : Tick := { time := 1, bid := 1.0900, ask := 1.0902 }

/-- A buy position whose stop (1.20) sits above a take-profit level (1.05),
so a single tick can satisfy both the stop-loss and the take-profit
condition at once. -/
def sigBothSides : ParsedSignal :=
  { sigBuySL with stopLoss := 1.2000, takeProfits := [1.0500] }

/-- A position opened on `sigBothSides` at 1.1002. -/
def tradeBothSides : OpenTrade := mkOpen sigBothSides 1.1002 tickOpen (1 / 100)

/-- A tick on which `tradeBothSides` crosses both its stop (bid 1.10 below
1.20) and its first take-profit (bid 1.10 above 1.05). -/
def tickBoth : Tick := { time := 1, bid := 1.1000, ask := 1.1002 }

/-- A signal with no parseable trigger timestamp. -/
def sigNoTs : ParsedSignal := { sigBuySL with timestamp := none }

/-- First resolution of an `Except`-valued result to its success value. -/
def okOr (e : Except BTError BacktestResults) (d : BacktestResults) : BacktestResults :=
  match e with
  | .ok r => r
  | .error _ => d

/-- C7: for signal timestamp components `p0, p1, p2`: if `p0 > 31` it is the
year with `p1` the month and `p2` the day; else if `p2 > 31` it is the year
and, among `p0` and `p1`, whichever exceeds 12 is the day (checking `p0`
first), defaulting to day-first when neither exceeds 12; else year-month-day
order is assumed with the two-digit year expanded as `2000 + YY` (in this
branch `p0 ≤ 31 < 100`, so the expansion always applies). -/
theorem timestamp_component_resolution (p0 p1 p2 : ℕ) :
    (31 < p0 → resolveYMD p0 p1 p2 = (p0, p1, p2)) ∧
    (p0 ≤ 31 → 31 < p2 → 12 < p0 → resolveYMD p0 p1 p2 = (p2, p1, p0)) ∧
    (p0 ≤ 31 → 31 < p2 → p0 ≤ 12 → 12 < p1 → resolveYMD p0 p1 p2 = (p2, p0, p1)) ∧
    (p0 ≤ 31 → 31 < p2 → p0 ≤ 12 → p1 ≤ 12 → resolveYMD p0 p1 p2 = (p2, p1, p0)) ∧
    (p0 ≤ 31 → p2 ≤ 31 → resolveYMD p0 p1 p2 = (2000 + p0, p1, p2)) := by
  refine ⟨fun h => ?_, fun h1 h2 h3 => ?_, fun h1 h2 h3 h4 => ?_,
    fun h1 h2 h3 h4 => ?_, fun h1 h2 => ?_⟩
  · simp only [resolveYMD]
    rw [if_pos h]
  · simp only [resolveYMD]
    rw [if_neg (by omega), if_pos h2, if_pos h3]
  · simp only [resolveYMD]
    rw [if_neg (by omega), if_pos h2, if_neg (by omega), if_pos h4]
  · simp only [resolveYMD]
    rw [if_neg (by omega), if_pos h2, if_neg (by omega), if_neg (by omega)]
  · simp only [resolveYMD]
    rw [if_neg (by omega), if_neg (by omega), if_pos (by omega)]

/-- Witness for C7 at the concrete components of "2024-10-27". -/
theorem timestamp_component_resolution_witness :
    31 < 2024 ∧ resolveYMD 2024 10 27 = (2024, 10, 27) :=
  ⟨by decide, (timestamp_component_resolution 2024 10 27).1 (by decide)⟩

/-- C8: for every schema-valid risk configuration (initial balance at least
1, fixed lot size at least 0.01 when present) and every balance at least 0
and any stop-loss pip distance, the computed lot size is at least 0.01. -/
theorem lot_size_floor (riskConfig : RiskConfig) (balance stopLossPips : ℚ) (symbol : String)
    (hinit : 1 ≤ riskConfig.initialBalance)
    (hfix : ∀ v, riskConfig.fixedLotSize = some v → 1 / 100 ≤ v)
    (hbal : 0 ≤ balance) :
    1 / 100 ≤ calculateLotSize riskConfig balance stopLossPips symbol := by
  cases hrt : riskConfig.riskType with
  | percentage =>
      simp only [calculateLotSize, hrt]
      exact le_max_left _ _
  | fixedLot =>
      simp only [calculateLotSize, hrt]
      cases hf : riskConfig.fixedLotSize with
      | none => simp only [jsOr]; exact le_refl _
      | some v =>
          simp only [jsOr]
          by_cases hv : v = 0
          · rw [if_pos hv]
          · rw [if_neg hv]
            exact hfix v hf
  | ruleBased =>
      simp only [calculateLotSize, hrt]
      exact le_max_left _ _

unseal Rat.add Rat.mul Rat.inv Rat.sub Rat.ofScientific in
/-- Witness for C8: a percentage-risk configuration at balance 0 and stop
distance 0 still yields at least 0.01 lots. -/
theorem lot_size_floor_witness :
    1 ≤ ({ riskFixed with riskType := .percentage } : RiskConfig).initialBalance ∧
    (0 : ℚ) ≤ 0 ∧
    1 / 100 ≤ calculateLotSize { riskFixed with riskType := .percentage } 0 0 "EURUSD" :=
  ⟨by decide, le_refl 0,
    lot_size_floor { riskFixed with riskType := .percentage } 0 0 "EURUSD" (by decide)
      (fun v hv => by
        simp only [riskFixed] at hv
        simp only [Option.some.injEq] at hv
        rw [← hv])
      (le_refl 0)⟩

/-- C9: with an empty signal list the run fails with the empty-signals
error, and with a non-empty list in which no signal carries a trigger
timestamp it fails with the no-timestamped-signals error; in both cases the
outcome is the same for every tick list whatsoever (the checks precede the
tick loop), so no tick is consumed and no trade or equity point is
produced. -/
theorem fail_fast_on_bad_signals :
    (∀ (uuid : ℕ → String) (startT endT : ℤ) (strategy : StrategyConfig)
        (riskConfig : RiskConfig) (ticks : List Tick),
        runBacktest uuid startT endT [] strategy riskConfig ticks = .error .emptySignals) ∧
    (∀ (uuid : ℕ → String) (startT endT : ℤ) (signals : List ParsedSignal)
        (strategy : StrategyConfig) (riskConfig : RiskConfig) (ticks : List Tick),
        signals ≠ [] → (∀ s ∈ signals, s.timestamp = none) →
        runBacktest uuid startT endT signals strategy riskConfig ticks =
          .error .noTimestampedSignals) := by
  constructor
  · intro uuid startT endT strategy riskConfig ticks
    simp [runBacktest, runEngine, Except.map]
  · intro uuid startT endT signals strategy riskConfig ticks hne hts
    have hfil : signals.filter (fun s => s.timestamp.isSome) = [] := by
      rw [List.filter_eq_nil_iff]
      intro s hs
      simp [hts s hs]
    have hemp : signals.isEmpty = false := by
      cases signals with
      | nil => exact absurd rfl hne
      | cons a l => rfl
    simp [runBacktest, runEngine, hemp, hfil, sortSignals, Except.map]

/-- Witness for C9 on a concrete signal without a timestamp. -/
theorem fail_fast_on_bad_signals_witness :
    ([sigNoTs] ≠ ([] : List ParsedSignal)) ∧
    runBacktest (fun _ => "a") 0 0 [] stratPlain riskFixed [tickSL] = .error .emptySignals ∧
    runBacktest (fun _ => "a") 0 0 [sigNoTs] stratPlain riskFixed [tickSL] =
      .error .noTimestampedSignals :=
  ⟨by simp,
    fail_fast_on_bad_signals.1 (fun _ => "a") 0 0 stratPlain riskFixed [tickSL],
    fail_fast_on_bad_signals.2 (fun _ => "a") 0 0 [sigNoTs] stratPlain riskFixed [tickSL]
      (by simp) (by intro s hs; simp at hs; simp [hs, sigNoTs])⟩

/-- C4 (amended): a trade record and an equity-curve point are appended at
exactly the full-close events; a partial-close event changes the balance by
its realized profit but appends neither a trade record nor an equity
point. -/
theorem trade_equity_appends (tick : Tick) (trade : OpenTrade) (ev : PosEvent) (st : EconState) :
    (applyEvent tick trade ev st).trades.length
        = st.trades.length + (if eventIsClose ev then 1 else 0) ∧
    (applyEvent tick trade ev st).curve.length
        = st.curve.length + (if eventIsClose ev then 1 else 0) ∧
    (applyEvent tick trade ev st).balance = st.balance + eventDelta ev := by
  cases ev <;> simp [applyEvent, eventIsClose, eventDelta, updateDD]

unseal Rat.add Rat.mul Rat.inv Rat.sub Rat.ofScientific in
/-- Counterexample for C4 as stated: a run whose only balance-changing event
is a partial close ends with a changed balance (10000.65 from 10000) but an
empty trade list and an equity curve still holding only the initial point —
so not every balance change appends a ClosedTrade and an EquityPoint. -/
theorem partClose_no_trade_record_cex :
    (runBacktest (fun _ => "a") 0 0 [sigBuyTPs] stratParts riskFixed [tickOpen, tickTP1]).map
        (fun r => (r.finalBalance, r.trades.length, r.equityCurve.length))
      = .ok (10000.65, 0, 1) ∧
    (10000.65 : ℚ) ≠ riskFixed.initialBalance := by
  constructor
  · decide
  · decide

theorem updatedForTick_fields (strategy : StrategyConfig) (tick : Tick) (trade : OpenTrade) :
    (updatedForTick strategy tick trade).signal = trade.signal ∧
    (updatedForTick strategy tick trade).remainingLots = trade.remainingLots ∧
    (updatedForTick strategy tick trade).initialLotSize = trade.initialLotSize ∧
    (updatedForTick strategy tick trade).entryPrice = trade.entryPrice ∧
    (updatedForTick strategy tick trade).entryTime = trade.entryTime ∧
    (updatedForTick strategy tick trade).tpHits = trade.tpHits ∧
    (updatedForTick strategy tick trade).realizedProfit = trade.realizedProfit ∧
    (updatedForTick strategy tick trade).weightedPips = trade.weightedPips := by
  obtain ⟨sid, sig, ep, et, csl, il, rl, hp, lp, th, rp, wp⟩ := trade
  obtain ⟨i, raw, sym, dir, sep, ssl, stps, sts⟩ := sig
  cases dir <;>
    simp only [updatedForTick, updateExtremes, applyTrailing, applyBreakeven] <;>
    split_ifs <;> simp

theorem updatedForTick_setTPs (strategy : StrategyConfig) (tick : Tick) (trade : OpenTrade)
    (tps : List ℚ) :
    updatedForTick strategy tick (setTPs trade tps)
      = setTPs (updatedForTick strategy tick trade) tps := by
  obtain ⟨sid, sig, ep, et, csl, il, rl, hp, lp, th, rp, wp⟩ := trade
  obtain ⟨i, raw, sym, dir, sep, ssl, stps, sts⟩ := sig
  cases dir <;>
    simp only [setTPs, updatedForTick, updateExtremes, applyTrailing, applyBreakeven] <;>
    split_ifs <;> simp_all

theorem slTriggered_setTPs (tick : Tick) (trade : OpenTrade) (tps : List ℚ) :
    slTriggered tick (setTPs trade tps) = slTriggered tick trade := by
  obtain ⟨sid, sig, ep, et, csl, il, rl, hp, lp, th, rp, wp⟩ := trade
  obtain ⟨i, raw, sym, dir, sep, ssl, stps, sts⟩ := sig
  cases dir <;> rfl

theorem slExitPrice_setTPs (tick : Tick) (trade : OpenTrade) (tps : List ℚ) :
    slExitPrice tick (setTPs trade tps) = slExitPrice tick trade := by
  obtain ⟨sid, sig, ep, et, csl, il, rl, hp, lp, th, rp, wp⟩ := trade
  obtain ⟨i, raw, sym, dir, sep, ssl, stps, sts⟩ := sig
  cases dir <;> rfl

theorem mkCloseInfo_setTPs (reason : ExitReason) (price : ℚ) (trade : OpenTrade)
    (tps : List ℚ) :
    mkCloseInfo reason price (setTPs trade tps) = mkCloseInfo reason price trade := by
  obtain ⟨sid, sig, ep, et, csl, il, rl, hp, lp, th, rp, wp⟩ := trade
  obtain ⟨i, raw, sym, dir, sep, ssl, stps, sts⟩ := sig
  cases dir <;> rfl

/-- C1: if the (post-ratchet, post-breakeven) stop-loss condition holds on a
tick, the position's evaluation yields a full close whose reason is `sl` or
`trailing_sl` — never a take-profit reason — and the outcome is entirely
independent of the signal's take-profit ladder, which is therefore not
evaluated on that tick even when a take-profit level is also crossed. -/
theorem sl_precedence_over_tp (strategy : StrategyConfig) (tick : Tick) (trade : OpenTrade)
    (h : slTriggered tick (updatedForTick strategy tick trade) = true) :
    (∃ info, (posStep strategy tick trade).2 = .close info ∧
        (info.reason = .sl ∨ info.reason = .trailingSl)) ∧
    ∀ tps, (posStep strategy tick (setTPs trade tps)).2 = (posStep strategy tick trade).2 := by
  constructor
  · refine ⟨mkCloseInfo (if strategy.trailingSL then .trailingSl else .sl)
        (slExitPrice tick (updatedForTick strategy tick trade))
        (updatedForTick strategy tick trade), ?_, ?_⟩
    · simp [posStep, h]
    · cases strategy.trailingSL <;> simp [mkCloseInfo]
  · intro tps
    have h2 : slTriggered tick (updatedForTick strategy tick (setTPs trade tps)) = true := by
      rw [updatedForTick_setTPs, slTriggered_setTPs]
      exact h
    simp [posStep, h, h2, updatedForTick_setTPs, slTriggered_setTPs, slExitPrice_setTPs,
      mkCloseInfo_setTPs]

unseal Rat.add Rat.mul Rat.inv Rat.sub Rat.ofScientific in
/-- Witness for C1: on `tickBoth` the stop condition holds and a take-profit
level (1.05) is simultaneously crossed, yet the event is a stop-loss
close and replacing the ladder changes nothing. -/
theorem sl_precedence_over_tp_witness :
    slTriggered tickBoth (updatedForTick stratPlain tickBoth tradeBothSides) = true ∧
    ((1.0500 : ℚ) ∈ tradeBothSides.signal.takeProfits ∧ tickBoth.bid ≥ 1.0500) ∧
    ((∃ info, (posStep stratPlain tickBoth tradeBothSides).2 = .close info ∧
        (info.reason = .sl ∨ info.reason = .trailingSl)) ∧
      ∀ tps, (posStep stratPlain tickBoth (setTPs tradeBothSides tps)).2
        = (posStep stratPlain tickBoth tradeBothSides).2) :=
  ⟨by decide, by decide, sl_precedence_over_tp stratPlain tickBoth tradeBothSides (by decide)⟩

/-- C10: the reason recorded for a stop-loss close is `trailing_sl` exactly
when the strategy's trailing flag is set and `sl` otherwise — the test is on
the flag alone, not on whether the ratchet ever moved the stop. -/
theorem sl_reason_depends_only_on_flag (strategy : StrategyConfig) (tick : Tick)
    (trade : OpenTrade)
    (h : slTriggered tick (updatedForTick strategy tick trade) = true) :
    ∃ info, (posStep strategy tick trade).2 = .close info ∧
      info.reason = (if strategy.trailingSL then ExitReason.trailingSl else ExitReason.sl) := by
  refine ⟨mkCloseInfo (if strategy.trailingSL then .trailingSl else .sl)
      (slExitPrice tick (updatedForTick strategy tick trade))
      (updatedForTick strategy tick trade), ?_, ?_⟩
  · simp [posStep, h]
  · cases strategy.trailingSL <;> simp [mkCloseInfo]

unseal Rat.add Rat.mul Rat.inv Rat.sub Rat.ofScientific in
/-- Witness for C10: trailing is enabled but no trailing distance is
configured, so the stop never moved (it still equals the original stop),
yet the recorded reason is `trailing_sl`. -/
theorem sl_reason_depends_only_on_flag_witness :
    slTriggered tickGap (updatedForTick stratTrailFlag tickGap tradeGap) = true ∧
    (updatedForTick stratTrailFlag tickGap tradeGap).currentSL = tradeGap.currentSL ∧
    ∃ info, (posStep stratTrailFlag tickGap tradeGap).2 = .close info ∧
      info.reason
        = (if stratTrailFlag.trailingSL then ExitReason.trailingSl else ExitReason.sl) :=
  ⟨by decide, by decide,
    sl_reason_depends_only_on_flag stratTrailFlag tickGap tradeGap (by decide)⟩

unseal Rat.add Rat.mul Rat.inv Rat.sub Rat.ofScientific in
/-- Counterexample for C3 as stated: a tick gapping below the stop books the
close at the tick's bid (1.0900), not at the position's current stop level
(1.0950). -/
theorem sl_exit_at_market_cex :
    exitPriceOf (posStep stratPlain tickGap tradeGap).2 = some 1.0900 ∧
    (posStep stratPlain tickGap tradeGap).1.currentSL = 1.0950 ∧
    (1.0900 : ℚ) ≠ 1.0950 :=
  ⟨by decide, by decide, by decide⟩

/-- C3 (amended): a stop-loss close books all remaining lots at the
triggering tick's market price — the bid for buys, the ask for sells —
which coincides with the stop level only when the tick touches it
exactly. -/
theorem sl_exit_price_is_market (strategy : StrategyConfig) (tick : Tick) (trade : OpenTrade)
    (h : slTriggered tick (updatedForTick strategy tick trade) = true) :
    ∃ info, (posStep strategy tick trade).2 = .close info ∧
      info.exitPrice = (match trade.signal.direction with
        | Direction.buy => tick.bid
        | Direction.sell => tick.ask) := by
  refine ⟨mkCloseInfo (if strategy.trailingSL then .trailingSl else .sl)
      (slExitPrice tick (updatedForTick strategy tick trade))
      (updatedForTick strategy tick trade), ?_, ?_⟩
  · simp [posStep, h]
  · have hsig := (updatedForTick_fields strategy tick trade).1
    simp only [mkCloseInfo, slExitPrice, hsig]

unseal Rat.add Rat.mul Rat.inv Rat.sub Rat.ofScientific in
/-- Witness for C3 (amended) on the gap scenario: the booked exit price is
the tick's bid. -/
theorem sl_exit_price_is_market_witness :
    slTriggered tickGap (updatedForTick stratPlain tickGap tradeGap) = true ∧
    ∃ info, (posStep stratPlain tickGap tradeGap).2 = .close info ∧
      info.exitPrice = (match tradeGap.signal.direction with
        | Direction.buy => tickGap.bid
        | Direction.sell => tickGap.ask) :=
  ⟨by decide, sl_exit_price_is_market stratPlain tickGap tradeGap (by decide)⟩

theorem tpScan_partClose_lots (strategy : StrategyConfig) (tick : Tick) (tr : OpenTrade) :
    ∀ (l : List (ℕ × ℚ)) (tr2 : OpenTrade) (d lots : ℚ),
      tpScan strategy tick tr l = (tr2, .partClose d lots) →
      lots = tr.remainingLots *
          ((if strategy.partClosePercent = 0 then 50 else strategy.partClosePercent) / 100) ∧
      tr2.remainingLots = tr.remainingLots - lots
  | [], tr2, d, lots => by
      intro h
      simp [tpScan] at h
  | (i, tp) :: rest, tr2, d, lots => by
      intro h
      simp only [tpScan] at h
      split at h
      · exact tpScan_partClose_lots strategy tick tr rest tr2 d lots h
      · split at h
        · exact tpScan_partClose_lots strategy tick tr rest tr2 d lots h
        · split at h
          · split at h
            · simp at h
            · split at h
              · simp only [Prod.mk.injEq, PosEvent.partClose.injEq] at h
                obtain ⟨hA, hB, hC⟩ := h
                subst hA
                subst hB
                subst hC
                constructor
                · simp
                · simp
              · simp at h
          · exact tpScan_partClose_lots strategy tick tr rest tr2 d lots h

/-- C2 (amended): a partial close at a non-terminal take-profit level closes
the configured percentage of the position's *currently remaining* lots (not
of the original lot size), and the remaining lots shrink by exactly the
closed amount — so successive partials form a geometric sequence. -/
theorem partClose_fraction_of_remaining (strategy : StrategyConfig) (tick : Tick)
    (trade : OpenTrade) (d lots : ℚ)
    (h : (posStep strategy tick trade).2 = .partClose d lots) :
    lots = trade.remainingLots *
        ((if strategy.partClosePercent = 0 then 50 else strategy.partClosePercent) / 100) ∧
    (posStep strategy tick trade).1.remainingLots = trade.remainingLots - lots := by
  have hrem := (updatedForTick_fields strategy tick trade).2.1
  by_cases hsl : slTriggered tick (updatedForTick strategy tick trade) = true
  · simp [posStep, hsl] at h
  · have hb : slTriggered tick (updatedForTick strategy tick trade) = false :=
      Bool.not_eq_true _ ▸ hsl
    simp only [posStep, hb, Bool.false_eq_true, if_false] at h ⊢
    have heq : tpScan strategy tick (updatedForTick strategy tick trade)
          (updatedForTick strategy tick trade).signal.takeProfits.enum
        = ((tpScan strategy tick (updatedForTick strategy tick trade)
            (updatedForTick strategy tick trade).signal.takeProfits.enum).1,
          .partClose d lots) :=
      Prod.ext rfl h
    have := tpScan_partClose_lots strategy tick (updatedForTick strategy tick trade) _ _ d lots heq
    rw [hrem] at this
    exact this

unseal Rat.add Rat.mul Rat.inv Rat.sub Rat.ofScientific in
/-- Counterexample for C2 as stated: with 50% partial close and initial lot
size 0.01, the *second* partial event closes 0.0025 lots — 50% of the
remaining 0.005 — not 0.005 = 50% of the original size that the claim
requires for every partial event. -/
theorem partClose_lots_cex :
    partLotsOf (posStep stratParts tickTP2 tradeTPs1).2 = some (1 / 400) ∧
    tradeTPs1.initialLotSize = 1 / 100 ∧
    (1 / 400 : ℚ) ≠ (50 / 100) * (1 / 100) :=
  ⟨by decide, by decide, by decide⟩

unseal Rat.add Rat.mul Rat.inv Rat.sub Rat.ofScientific in
/-- Witness for C2 (amended) on the first partial event of the same
scenario: it closes 50% of the then-remaining (= original) 0.01 lots. -/
theorem partClose_fraction_of_remaining_witness :
    (posStep stratParts tickTP1 tradeTPs0).2 = .partClose (13 / 20) (1 / 200) ∧
    ((1 / 200 : ℚ) = tradeTPs0.remainingLots *
        ((if stratParts.partClosePercent = 0 then 50 else stratParts.partClosePercent) / 100) ∧
      (posStep stratParts tickTP1 tradeTPs0).1.remainingLots
        = tradeTPs0.remainingLots - 1 / 200) :=
  ⟨by decide,
    partClose_fraction_of_remaining stratParts tickTP1 tradeTPs0 (13 / 20) (1 / 200) (by decide)⟩

theorem tpScan_close_reason (strategy : StrategyConfig) (tick : Tick) (tr : OpenTrade) :
    ∀ (l : List (ℕ × ℚ)) (tr2 : OpenTrade) (info : CloseInfo),
      tpScan strategy tick tr l = (tr2, .close info) → ∃ n, info.reason = .tp n
  | [], tr2, info => by
      intro h
      simp [tpScan] at h
  | (i, tp) :: rest, tr2, info => by
      intro h
      simp only [tpScan] at h
      split at h
      · exact tpScan_close_reason strategy tick tr rest tr2 info h
      · split at h
        · exact tpScan_close_reason strategy tick tr rest tr2 info h
        · split at h
          · split at h
            · simp only [Prod.mk.injEq, PosEvent.close.injEq] at h
              obtain ⟨hA, hB⟩ := h
              subst hB
              exact ⟨i + 1, rfl⟩
            · split at h
              · simp at h
              · simp at h
          · exact tpScan_close_reason strategy tick tr rest tr2 info h

theorem posStep_close_reason (strategy : StrategyConfig) (tick : Tick) (trade : OpenTrade)
    (info : CloseInfo) (h : (posStep strategy tick trade).2 = .close info) :
    GoodReason info.reason := by
  by_cases hsl : slTriggered tick (updatedForTick strategy tick trade) = true
  · simp only [posStep, hsl, if_true] at h
    simp only [PosEvent.close.injEq] at h
    subst h
    cases hbt : strategy.trailingSL <;> simp [mkCloseInfo, GoodReason, hbt]
  · have hb : slTriggered tick (updatedForTick strategy tick trade) = false :=
      Bool.not_eq_true _ ▸ hsl
    simp only [posStep, hb, Bool.false_eq_true, if_false] at h
    have heq : tpScan strategy tick (updatedForTick strategy tick trade)
          (updatedForTick strategy tick trade).signal.takeProfits.enum
        = ((tpScan strategy tick (updatedForTick strategy tick trade)
            (updatedForTick strategy tick trade).signal.takeProfits.enum).1, .close info) :=
      Prod.ext rfl h
    obtain ⟨n, hn⟩ := tpScan_close_reason strategy tick (updatedForTick strategy tick trade)
      _ _ info heq
    exact Or.inr (Or.inr ⟨n, hn⟩)

theorem applyEvent_good (tick : Tick) (trade : OpenTrade) (ev : PosEvent) (st : EconState)
    (hst : ∀ c ∈ st.trades, GoodReason c.exitReason)
    (hev : ∀ info, ev = .close info → GoodReason info.reason) :
    ∀ c ∈ (applyEvent tick trade ev st).trades, GoodReason c.exitReason := by
  cases ev with
  | noEvent => exact hst
  | partClose d lots =>
      intro c hc
      exact hst c (by simpa [applyEvent, updateDD] using hc)
  | close info =>
      intro c hc
      simp only [applyEvent, updateDD, List.mem_append, List.mem_singleton] at hc
      rcases hc with hc | hc
      · exact hst c hc
      · subst hc
        exact hev info rfl

theorem processPositions_snd (strategy : StrategyConfig) (tick : Tick) (id : String)
    (trade : OpenTrade) (rest : List (String × OpenTrade)) (st : EconState) :
    (processPositions strategy tick ((id, trade) :: rest) st).2
      = (processPositions strategy tick rest
          (applyEvent tick (posStep strategy tick trade).1 (posStep strategy tick trade).2 st)).2 := by
  rcases hev : (posStep strategy tick trade).2 with _ | ⟨d, lots⟩ | info <;>
    simp [processPositions, hev]

theorem processPositions_good (strategy : StrategyConfig) (tick : Tick) :
    ∀ (l : List (String × OpenTrade)) (st : EconState),
      (∀ c ∈ st.trades, GoodReason c.exitReason) →
      ∀ c ∈ (processPositions strategy tick l st).2.trades, GoodReason c.exitReason
  | [], st => fun hst => hst
  | (id, trade) :: rest, st => by
      intro hst
      rw [processPositions_snd]
      exact processPositions_good strategy tick rest _
        (applyEvent_good tick _ _ st hst
          (fun info hinfo => posStep_close_reason strategy tick trade info hinfo))

theorem tickStep_good (strategy : StrategyConfig) (riskConfig : RiskConfig) (tick : Tick)
    (st : EngState) (hst : ∀ c ∈ st.econ.trades, GoodReason c.exitReason) :
    ∀ c ∈ (tickStep strategy riskConfig tick st).econ.trades, GoodReason c.exitReason := by
  simp only [tickStep]
  exact processPositions_good strategy tick _ _ hst

theorem runLoop_good (strategy : StrategyConfig) (riskConfig : RiskConfig) :
    ∀ (ticks : List Tick) (st : EngState),
      (∀ c ∈ st.econ.trades, GoodReason c.exitReason) →
      ∀ c ∈ (runLoop strategy riskConfig ticks st).econ.trades, GoodReason c.exitReason
  | [], st => fun hst => hst
  | tick :: rest, st => by
      intro hst
      simp only [runLoop]
      split
      · exact tickStep_good strategy riskConfig tick st hst
      · exact runLoop_good strategy riskConfig rest _
          (tickStep_good strategy riskConfig tick st hst)

theorem runEngine_good (signals : List ParsedSignal) (strategy : StrategyConfig)
    (riskConfig : RiskConfig) (ticks : List Tick) (st : EngState)
    (h : runEngine signals strategy riskConfig ticks = .ok st) :
    ∀ c ∈ st.econ.trades, GoodReason c.exitReason := by
  unfold runEngine at h
  split at h
  · simp at h
  · simp only [] at h
    split at h
    · simp at h
    · split at h
      · split at h
        · simp at h
        · split at h
          · split at h
            · simp at h
            · split at h
              · simp at h
              · injection h with h2
                subst h2
                exact runLoop_good strategy riskConfig ticks _ (by simp [initState])
          · injection h with h2
            subst h2
            exact runLoop_good strategy riskConfig ticks _ (by simp [initState])
      · injection h with h2
        subst h2
        exact runLoop_good strategy riskConfig ticks _ (by simp [initState])

theorem attachIds_mem (uuid : ℕ → String) :
    ∀ (k : ℕ) (l : List TradeCore) (t : TradeResult),
      t ∈ attachIds uuid k l → ∃ c ∈ l, t.exitReason = c.exitReason
  | k, [], t => by
      intro h
      simp [attachIds] at h
  | k, c :: rest, t => by
      intro h
      simp only [attachIds, List.mem_cons] at h
      rcases h with h | h
      · exact ⟨c, List.mem_cons_self c rest, by subst h; rfl⟩
      · obtain ⟨c2, hc2, he⟩ := attachIds_mem uuid (k + 1) rest t h
        exact ⟨c2, List.mem_cons_of_mem c hc2, he⟩

/-- C5 (amended): the served engine never emits a synthetic `open` trade: in
every successful run, every record in the output trade list is a real close
tagged `sl`, `trailing_sl`, or some `tpN` — positions still open when the
tick stream is exhausted are dropped from the trade list (only a warning is
logged).  The synthetic-`open`-trade behaviour exists only in the separate
`runBacktestCore` variant, not in the engine `routes.ts` serves. -/
theorem no_synthetic_open_trades (uuid : ℕ → String) (startT endT : ℤ)
    (signals : List ParsedSignal) (strategy : StrategyConfig) (riskConfig : RiskConfig)
    (ticks : List Tick) (res : BacktestResults)
    (h : runBacktest uuid startT endT signals strategy riskConfig ticks = .ok res) :
    ∀ t ∈ res.trades,
      t.exitReason = .sl ∨ t.exitReason = .trailingSl ∨ ∃ n, t.exitReason = .tp n := by
  unfold runBacktest at h
  cases hE : runEngine signals strategy riskConfig ticks with
  | error e =>
      rw [hE] at h
      simp [Except.map] at h
  | ok st =>
      rw [hE] at h
      simp only [Except.map] at h
      injection h with h2
      subst h2
      intro t ht
      have hmem : t ∈ attachIds uuid 0 st.econ.trades := by
        simpa [assemble] using ht
      obtain ⟨c, hc, he⟩ := attachIds_mem uuid 0 st.econ.trades t hmem
      rw [he]
      have := runEngine_good signals strategy riskConfig ticks st hE c hc
      simpa [GoodReason] using this

unseal Rat.add Rat.mul Rat.inv Rat.sub Rat.ofScientific in
/-- Counterexample for C5 as stated: a run ending with one position still
open produces an empty trade list — the open position is dropped, no
synthetic zero-profit `open` record is emitted for it. -/
theorem open_positions_dropped_cex :
    (runEngine [sigStaysOpen] stratPlain riskFixed [tickOpen]).map
        (fun st => (st.openTrades.length, st.econ.trades.length)) = .ok (1, 0) := by
  decide

unseal Rat.add Rat.mul Rat.inv Rat.sub Rat.ofScientific in
/-- Witness for C5 (amended) on a run producing one stop-loss trade. -/
theorem no_synthetic_open_trades_witness :
    runBacktest (fun _ => "w") 0 0 [sigBuySL] stratPlain riskFixed [tickSL]
        = .ok (okOr (runBacktest (fun _ => "w") 0 0 [sigBuySL] stratPlain riskFixed [tickSL])
            default) ∧
    ∀ t ∈ (okOr (runBacktest (fun _ => "w") 0 0 [sigBuySL] stratPlain riskFixed [tickSL])
        default).trades,
      t.exitReason = .sl ∨ t.exitReason = .trailingSl ∨ ∃ n, t.exitReason = .tp n :=
  ⟨by decide,
    no_synthetic_open_trades (fun _ => "w") 0 0 [sigBuySL] stratPlain riskFixed [tickSL] _
      (by decide)⟩

theorem attachIds_len (uuid : ℕ → String) :
    ∀ (k : ℕ) (l : List TradeCore), (attachIds uuid k l).length = l.length
  | k, [] => rfl
  | k, c :: rest => by
      simp only [attachIds, List.length_cons, attachIds_len uuid (k + 1) rest]

theorem attachIds_map_strip (uuid : ℕ → String) :
    ∀ (k : ℕ) (l : List TradeCore),
      (attachIds uuid k l).map stripTrade = l.map (withId "")
  | k, [] => rfl
  | k, c :: rest => by
      simp only [attachIds, List.map_cons, attachIds_map_strip uuid (k + 1) rest]
      rfl

theorem attachIds_win (uuid : ℕ → String) :
    ∀ (k : ℕ) (l : List TradeCore),
      (((attachIds uuid k l).filter (fun t => 0 < t.profit)).map fun t => t.profit)
        = ((l.filter (fun c => 0 < c.profit)).map fun c => c.profit)
  | k, [] => rfl
  | k, c :: rest => by
      by_cases hc : (0 : ℚ) < c.profit <;>
        simp [attachIds, List.filter_cons, withId, hc, attachIds_win uuid (k + 1) rest]

theorem attachIds_loss (uuid : ℕ → String) :
    ∀ (k : ℕ) (l : List TradeCore),
      (((attachIds uuid k l).filter (fun t => t.profit < 0)).map fun t => t.profit)
        = ((l.filter (fun c => c.profit < 0)).map fun c => c.profit)
  | k, [] => rfl
  | k, c :: rest => by
      by_cases hc : c.profit < (0 : ℚ) <;>
        simp [attachIds, List.filter_cons, withId, hc, attachIds_loss uuid (k + 1) rest]

theorem attachIds_loss_abs (uuid : ℕ → String) :
    ∀ (k : ℕ) (l : List TradeCore),
      (((attachIds uuid k l).filter (fun t => t.profit < 0)).map fun t => |t.profit|)
        = ((l.filter (fun c => c.profit < 0)).map fun c => |c.profit|)
  | k, [] => rfl
  | k, c :: rest => by
      by_cases hc : c.profit < (0 : ℚ) <;>
        simp [attachIds, List.filter_cons, withId, hc, attachIds_loss_abs uuid (k + 1) rest]

theorem attachIds_pips (uuid : ℕ → String) :
    ∀ (k : ℕ) (l : List TradeCore),
      ((attachIds uuid k l).map fun t => t.pips) = (l.map fun c => c.pips)
  | k, [] => rfl
  | k, c :: rest => by
      simp [attachIds, withId, attachIds_pips uuid (k + 1) rest]

theorem attachIds_win_len (uuid : ℕ → String) (k : ℕ) (l : List TradeCore) :
    ((attachIds uuid k l).filter (fun t => 0 < t.profit)).length
      = (l.filter (fun c => 0 < c.profit)).length := by
  rw [← List.length_map ((attachIds uuid k l).filter fun t => 0 < t.profit) (fun t => t.profit),
    attachIds_win, List.length_map]

theorem attachIds_loss_len (uuid : ℕ → String) (k : ℕ) (l : List TradeCore) :
    ((attachIds uuid k l).filter (fun t => t.profit < 0)).length
      = (l.filter (fun c => c.profit < 0)).length := by
  rw [← List.length_map ((attachIds uuid k l).filter fun t => t.profit < 0) (fun t => t.profit),
    attachIds_loss, List.length_map]

/-- C6 (amended): two runs on identical tick data, signals, strategy and
risk configuration agree on every part of the result except what is derived
from the entropy stream and the wall clock: the result id, the trade ids,
`startTime`, `endTime`, and the initial equity point's time (which carries
the wall-clock start).  After erasing exactly those, the results are
bit-identical — the claim's exception list must be extended from
{startTime, endTime} to include the ids and the initial equity point's
time. -/
theorem deterministic_modulo_ids_and_clock (u1 u2 : ℕ → String) (s1 e1 s2 e2 : ℤ)
    (signals : List ParsedSignal) (strategy : StrategyConfig) (riskConfig : RiskConfig)
    (ticks : List Tick) :
    (runBacktest u1 s1 e1 signals strategy riskConfig ticks).map stripResults
      = (runBacktest u2 s2 e2 signals strategy riskConfig ticks).map stripResults := by
  unfold runBacktest
  cases hE : runEngine signals strategy riskConfig ticks with
  | error e => rfl
  | ok st =>
      simp only [Except.map]
      congr 1
      simp only [stripResults, assemble, stripCurveHead]
      simp [attachIds_map_strip, attachIds_len, attachIds_win, attachIds_loss,
        attachIds_loss_abs, attachIds_pips, attachIds_win_len, attachIds_loss_len]

unseal Rat.add Rat.mul Rat.inv Rat.sub Rat.ofScientific in
/-- Counterexample for C6 as stated: with identical ticks, signals, strategy
and risk configuration but different entropy draws and wall-clock reads, the
trade lists differ (the trade ids) and the equity curves differ (the initial
point's time) — fields other than `startTime`/`endTime`. -/
theorem uuid_clock_affect_output_cex :
    (runBacktest (fun _ => "a") 5 6 [sigBuySL] stratPlain riskFixed [tickSL]).map
        (fun r => r.trades)
      ≠ (runBacktest (fun _ => "b") 7 8 [sigBuySL] stratPlain riskFixed [tickSL]).map
        (fun r => r.trades) ∧
    (runBacktest (fun _ => "a") 5 6 [sigBuySL] stratPlain riskFixed [tickSL]).map
        (fun r => r.equityCurve)
      ≠ (runBacktest (fun _ => "b") 7 8 [sigBuySL] stratPlain riskFixed [tickSL]).map
        (fun r => r.equityCurve) :=
  ⟨by decide, by decide⟩
